import Mathlib

open scoped List

/-!
Verification of the comparable-matching engine of this repository.

The repository holds two Streamlit scripts.  The current one
(`steamlit.py`) defines `find_comparables(subject_property, dataset)`:
it filters the dataset by identity distinctness, class equality, the
literal type `"Hotel"`, an absolute market-value band of ±100000 and a
two-sided VPR band `[subject.VPR / 2, subject.VPR]`, then adds the two
difference columns `Market_Value_Diff` and `VPU_VPR_Diff`, sorts by
them (pandas' multi-key `sort_values`, a stable lexicographic sort) and
keeps the first five rows.  The historical variant (`steamlit (2).py`)
uses a one-sided VPR bound `VPR <= subject.VPR * 1.5` and sorts by
`Combined_Diff`, then `Market_Value_Diff`, then `VPU_VPR_Diff`.

Two embeddings are developed.

* A record-level model (`Record`, `find_comparables`,
  `find_comparablesOld`): the dataset is a list of records with the
  full engine schema, numeric cells are exact rationals, and the stable
  multi-key sort is `List.insertionSort` (any two stable sorts agree,
  so the stable insertion sort is a faithful model of pandas'
  stable lexicographic multi-key sort).

* A frame-level model (`Frame`, `findComparablesE`): the dataset is a
  header row plus value rows, cell access and numeric coercion may fail
  the way pandas raises `KeyError` for a missing column and `TypeError`
  for a non-numeric cell in a numeric comparison, and the batch report
  builder of `main` (the download loop) is `buildReport`, which mirrors
  the per-row `try/except` of the source.

Numeric CSV cells are modelled as exact rationals.
-/

/-- A row of the dataset, with the nine attributes the engine reads.
String attributes keep the roles of the source columns `Hotel Name`,
`Property Address`, `Owner Name/ LLC Name`, `Owner Street Address`,
`Hotel Class`, `Type` and `account number`; `marketValue` is
`Market Value-2024` and `vpr` is `VPR`. -/
structure Record where
  hotelName : String
  propertyAddress : String
  ownerName : String
  ownerStreetAddress : String
  hotelClass : String
  type : String
  marketValue : ℚ
  vpr : ℚ
  accountNumber : String
deriving DecidableEq

/-- The boolean mask of `steamlit.py`, lines 11–22: identity fields all
differ, class matches, type is the literal `"Hotel"`, market value lies
in the ±100000 band, and VPR lies in `[subject.VPR / 2, subject.VPR]`. -/
def eligible (s c : Record) : Bool :=
  decide (c.hotelName ≠ s.hotelName) &&
  decide (c.propertyAddress ≠ s.propertyAddress) &&
  decide (c.ownerName ≠ s.ownerName) &&
  decide (c.ownerStreetAddress ≠ s.ownerStreetAddress) &&
  decide (c.hotelClass = s.hotelClass) &&
  decide (c.type = "Hotel") &&
  decide (s.marketValue - 100000 ≤ c.marketValue) &&
  decide (c.marketValue ≤ s.marketValue + 100000) &&
  decide (s.vpr / 2 ≤ c.vpr) &&
  decide (c.vpr ≤ s.vpr)

/-- The filtering step of `find_comparables`: `dataset[mask]` keeps the
rows satisfying the mask, in dataset order. -/
def filterStep (s : Record) (d : List Record) : List Record :=
  d.filter (eligible s)

/-- `Market_Value_Diff`: `abs(c['Market Value-2024'] - s['Market Value-2024'])`. -/
def valueDiff (s c : Record) : ℚ :=
  |c.marketValue - s.marketValue|

/-- `VPU_VPR_Diff`: `abs(c['VPR'] - s['VPR'])`. -/
def ratioDiff (s c : Record) : ℚ :=
  |c.vpr - s.vpr|

/-- The comparison of `sort_values(by=['Market_Value_Diff', 'VPU_VPR_Diff'])`:
lexicographic on the value difference, then the ratio difference. -/
def keyLe (s a b : Record) : Prop :=
  valueDiff s a < valueDiff s b ∨
    (valueDiff s a = valueDiff s b ∧ ratioDiff s a ≤ ratioDiff s b)

instance (s : Record) : DecidableRel (keyLe s) := fun a b => by
  unfold keyLe; infer_instance

instance (s : Record) : IsTotal Record (keyLe s) := by
  constructor
  intro a b
  rcases lt_trichotomy (valueDiff s a) (valueDiff s b) with h | h | h
  · exact Or.inl (Or.inl h)
  · rcases le_total (ratioDiff s a) (ratioDiff s b) with h' | h'
    · exact Or.inl (Or.inr ⟨h, h'⟩)
    · exact Or.inr (Or.inr ⟨h.symm, h'⟩)
  · exact Or.inr (Or.inl h)

instance (s : Record) : IsTrans Record (keyLe s) := by
  constructor
  intro a b c hab hbc
  rcases hab with hab | ⟨hab, hab'⟩ <;> rcases hbc with hbc | ⟨hbc, hbc'⟩
  · exact Or.inl (hab.trans hbc)
  · exact Or.inl (hbc ▸ hab)
  · exact Or.inl (hab ▸ hbc)
  · exact Or.inr ⟨hab.trans hbc, hab'.trans hbc'⟩

/-- `find_comparables` of `steamlit.py`: filter, return an empty frame
when nothing matches, otherwise sort stably by
`(Market_Value_Diff, VPU_VPR_Diff)` and keep the first five rows. -/
def find_comparables (s : Record) (d : List Record) : List Record :=
  let filtered := filterStep s d
  if filtered = [] then []
  else (filtered.insertionSort (keyLe s)).take 5

/-- The mask of the historical variant (`steamlit (2).py`): same
identity, class, type and value conditions, but the only VPR condition
is the one-sided `VPR <= subject.VPR * 1.5`. -/
def eligibleOld (s c : Record) : Bool :=
  decide (c.hotelName ≠ s.hotelName) &&
  decide (c.propertyAddress ≠ s.propertyAddress) &&
  decide (c.ownerName ≠ s.ownerName) &&
  decide (c.ownerStreetAddress ≠ s.ownerStreetAddress) &&
  decide (c.hotelClass = s.hotelClass) &&
  decide (c.type = "Hotel") &&
  decide (s.marketValue - 100000 ≤ c.marketValue) &&
  decide (c.marketValue ≤ s.marketValue + 100000) &&
  decide (c.vpr ≤ s.vpr * 1.5)

/-- `Combined_Diff = Market_Value_Diff + VPU_VPR_Diff` of the
historical variant. -/
def combinedDiff (s c : Record) : ℚ :=
  valueDiff s c + ratioDiff s c

/-- The comparison of the historical
`sort_values(by=['Combined_Diff', 'Market_Value_Diff', 'VPU_VPR_Diff'])`. -/
def keyLeOld (s a b : Record) : Prop :=
  combinedDiff s a < combinedDiff s b ∨
    (combinedDiff s a = combinedDiff s b ∧ keyLe s a b)

instance (s : Record) : DecidableRel (keyLeOld s) := fun a b => by
  unfold keyLeOld; infer_instance

/-- `find_comparables` of the historical variant: filter with the
one-sided VPR bound, sort stably by the combined key, keep five. -/
def find_comparablesOld (s : Record) (d : List Record) : List Record :=
  ((d.filter (eligibleOld s)).insertionSort (keyLeOld s)).take 5

/-! ### Generic list lemmas for the stable sort -/

/-- Splitting a two-element sublist of `m₁ ++ x :: m₂` around `x`. -/
lemma pair_sublist_append_cons {α : Type} {m₁ m₂ : List α} {x a b : α}
    (h : [a, b] <+ m₁ ++ x :: m₂) :
    [a, b] <+ m₁ ++ m₂ ∨ (a = x ∧ b ∈ m₂) ∨ (b = x ∧ a ∈ m₁) := by
  rcases List.sublist_append_iff.1 h with ⟨s₁, s₂, hs, h₁, h₂⟩
  rcases s₁ with _ | ⟨c, _ | ⟨d', s₁⟩⟩
  · simp only [List.nil_append] at hs
    subst hs
    cases h₂ with
    | cons _ h' => exact Or.inl (h'.trans (List.sublist_append_right m₁ m₂))
    | cons₂ _ h' => exact Or.inr (Or.inl ⟨rfl, List.singleton_sublist.1 h'⟩)
  · simp only [List.cons_append, List.nil_append] at hs
    injection hs with hac hs
    subst hac
    subst hs
    cases h₂ with
    | cons _ h' => exact Or.inl (h₁.append h')
    | cons₂ _ h' => exact Or.inr (Or.inr ⟨rfl, List.singleton_sublist.1 h₁⟩)
  · simp only [List.cons_append] at hs
    injection hs with hac hs
    injection hs with hbd hs
    subst hac
    subst hbd
    rcases List.append_eq_nil.1 hs.symm with ⟨rfl, rfl⟩
    exact Or.inl (h₁.trans (List.sublist_append_left m₁ m₂))

/-- Reverse stability of the insertion sort: a pair that the sort could
legitimately have swapped (`r b a` holds) and that occurs in order
`[a, b]` in the sorted output already occurred in that order in the
input. -/
lemma pair_sublist_of_sublist_insertionSort {α : Type} (r : α → α → Prop)
    [DecidableRel r] {a b : α} (hba : r b a) :
    ∀ {l : List α}, [a, b] <+ List.insertionSort r l → [a, b] <+ l := by
  intro l
  induction l with
  | nil => intro h; simp at h
  | cons x l ih =>
    intro h
    rw [List.insertionSort, List.orderedInsert_eq_take_drop] at h
    rcases pair_sublist_append_cons h with h' | ⟨rfl, hb⟩ | ⟨rfl, ha⟩
    · rw [List.takeWhile_append_dropWhile] at h'
      exact (ih h').cons x
    · have hb' : b ∈ l := by
        have := (List.dropWhile_sublist _).subset hb
        exact (List.perm_insertionSort r l).subset this
      exact List.cons_sublist_cons.2 (List.singleton_sublist.2 hb')
    · have := List.mem_takeWhile_imp ha
      simp only [decide_eq_true_eq] at this
      exact absurd hba this

/-! ### C1–C5: the record-level claims -/

lemma mem_filterStep (s : Record) (d : List Record) (c : Record) :
    c ∈ filterStep s d ↔
      c ∈ d ∧ c.hotelName ≠ s.hotelName ∧ c.propertyAddress ≠ s.propertyAddress ∧
        c.ownerName ≠ s.ownerName ∧ c.ownerStreetAddress ≠ s.ownerStreetAddress ∧
        c.hotelClass = s.hotelClass ∧ c.type = "Hotel" ∧
        s.marketValue - 100000 ≤ c.marketValue ∧ c.marketValue ≤ s.marketValue + 100000 ∧
        s.vpr / 2 ≤ c.vpr ∧ c.vpr ≤ s.vpr := by
  simp [filterStep, eligible, List.mem_filter, and_assoc]

/-- C1: a candidate row is kept by the eligibility filter of
`find_comparables` iff its four identity fields all differ from the
subject's, its class equals the subject's, its type is the literal
`"Hotel"`, its market value lies within ±100000 of the subject's, and
its VPR lies in `[subject.VPR / 2, subject.VPR]`, all bounds
inclusive. -/
theorem mem_filterStep_iff (s : Record) (d : List Record) (c : Record) :
    c ∈ filterStep s d ↔
      c ∈ d ∧ c.hotelName ≠ s.hotelName ∧ c.propertyAddress ≠ s.propertyAddress ∧
        c.ownerName ≠ s.ownerName ∧ c.ownerStreetAddress ≠ s.ownerStreetAddress ∧
        c.hotelClass = s.hotelClass ∧ c.type = "Hotel" ∧
        s.marketValue - 100000 ≤ c.marketValue ∧ c.marketValue ≤ s.marketValue + 100000 ∧
        s.vpr / 2 ≤ c.vpr ∧ c.vpr ≤ s.vpr :=
  mem_filterStep s d c

lemma not_mem_find_comparables_self (s : Record) (d : List Record) :
    s ∉ find_comparables s d := by
  intro h
  by_cases hf : filterStep s d = []
  · simp [find_comparables, hf] at h
  · rw [find_comparables] at h
    simp only [if_neg hf] at h
    have h1 : s ∈ (filterStep s d).insertionSort (keyLe s) :=
      (List.take_sublist 5 _).subset h
    have h2 : s ∈ filterStep s d := (List.perm_insertionSort _ _).subset h1
    rcases (mem_filterStep s d s).1 h2 with ⟨-, hne, -⟩
    exact hne rfl

/-- C3: the subject itself never appears among its own comparables. -/
theorem subject_not_mem_find_comparables (s : Record) (d : List Record) :
    decide (s ∈ find_comparables s d) = false := by
  simpa using not_mem_find_comparables_self s d

/-- C2: the result of `find_comparables` never has more than five rows,
and when fewer than five candidates pass the filter it is exactly the
eligible set (as a permutation of the filtered rows), in sorted
order. -/
theorem find_comparables_topN (s : Record) (d : List Record) :
    (find_comparables s d).length ≤ 5 ∧
      ((filterStep s d).length < 5 →
        (find_comparables s d).Perm (filterStep s d) ∧
          (find_comparables s d).Sorted (keyLe s)) := by
  by_cases hf : filterStep s d = []
  · refine ⟨by simp [find_comparables, hf], fun _ => ?_⟩
    simp [find_comparables, hf, List.Sorted]
  · have hlen : ((filterStep s d).insertionSort (keyLe s)).length =
        (filterStep s d).length := List.length_insertionSort _ _
    constructor
    · rw [find_comparables]
      simp only [if_neg hf]
      exact (List.length_take 5 _).trans_le (min_le_left _ _)
    · intro hlt
      have htake : ((filterStep s d).insertionSort (keyLe s)).take 5 =
          (filterStep s d).insertionSort (keyLe s) :=
        List.take_of_length_le (by omega)
      rw [find_comparables]
      simp only [if_neg hf, htake]
      exact ⟨List.perm_insertionSort _ _, List.sorted_insertionSort _ _⟩

/-- C4: along the returned list the market-value differences are
non-decreasing, and whenever two consecutive rows have equal value
difference their VPR differences are non-decreasing as well. -/
theorem find_comparables_monotone (s : Record) (d : List Record) :
    List.Chain' (fun a b => valueDiff s a ≤ valueDiff s b ∧
      (valueDiff s a = valueDiff s b → ratioDiff s a ≤ ratioDiff s b))
      (find_comparables s d) := by
  by_cases hf : filterStep s d = []
  · simp [find_comparables, hf]
  · have hs : ((filterStep s d).insertionSort (keyLe s)).Sorted (keyLe s) :=
      List.sorted_insertionSort _ _
    have hp : (find_comparables s d).Pairwise (keyLe s) := by
      rw [find_comparables]
      simp only [if_neg hf]
      exact List.Pairwise.sublist (List.take_sublist 5 _) hs
    refine List.Pairwise.chain' (hp.imp ?_)
    rintro a b (hlt | ⟨heq, hle⟩)
    · exact ⟨hlt.le, fun he => absurd (he ▸ hlt) (lt_irrefl _)⟩
    · exact ⟨heq.le, fun _ => hle⟩

/-- C5: the sort is stable — two result rows whose composite sort keys
are exactly equal appear in the result in their original dataset
order. -/
theorem find_comparables_stable (s : Record) (d : List Record) (a b : Record)
    (hv : valueDiff s a = valueDiff s b) (hr : ratioDiff s a = ratioDiff s b)
    (h : [a, b] <+ find_comparables s d) : [a, b] <+ d := by
  by_cases hf : filterStep s d = []
  · rw [find_comparables] at h
    simp only [if_pos hf] at h
    simpa using h.length_le
  · rw [find_comparables] at h
    simp only [if_neg hf] at h
    have h1 : [a, b] <+ (filterStep s d).insertionSort (keyLe s) :=
      h.trans (List.take_sublist 5 _)
    have hba : keyLe s b a := Or.inr ⟨hv.symm, hr.ge⟩
    have h2 : [a, b] <+ filterStep s d :=
      pair_sublist_of_sublist_insertionSort (keyLe s) hba h1
    exact h2.trans (List.filter_sublist _)

/-! ### Concrete data for witnesses and for the policy comparison -/

/-- A concrete subject property. -/
def subj : Record :=
  ⟨"Subject Hotel", "1 Main St", "Subject LLC", "10 Owner Rd", "A", "Hotel", 1000000, 10, "S-1"⟩

/-- An eligible candidate with value difference 10 and VPR difference 5. -/
def recA : Record :=
  ⟨"Hotel A", "2 A St", "A LLC", "20 A Rd", "A", "Hotel", 1000010, 5, "A-1"⟩

/-- Candidates with value difference 11 and VPR difference 1, pairwise
distinct in their identity fields but with identical sort keys. -/
def recB1 : Record :=
  ⟨"Hotel B1", "3 B St", "B1 LLC", "30 B Rd", "A", "Hotel", 1000011, 9, "B-1"⟩

def recB2 : Record :=
  ⟨"Hotel B2", "4 B St", "B2 LLC", "40 B Rd", "A", "Hotel", 1000011, 9, "B-2"⟩

def recB3 : Record :=
  ⟨"Hotel B3", "5 B St", "B3 LLC", "50 B Rd", "A", "Hotel", 1000011, 9, "B-3"⟩

def recB4 : Record :=
  ⟨"Hotel B4", "6 B St", "B4 LLC", "60 B Rd", "A", "Hotel", 1000011, 9, "B-4"⟩

def recB5 : Record :=
  ⟨"Hotel B5", "7 B St", "B5 LLC", "70 B Rd", "A", "Hotel", 1000011, 9, "B-5"⟩

/-- A small dataset with three eligible candidates. -/
def dataSmall : List Record := [subj, recA, recB1, recB2]

/-- A dataset with six eligible candidates, on which the two ordering
policies select different top-5 sets. -/
def dataSix : List Record := [subj, recA, recB1, recB2, recB3, recB4, recB5]

lemma filterStep_dataSmall : filterStep subj dataSmall = [recA, recB1, recB2] := by
  norm_num [filterStep, eligible, dataSmall, subj, recA, recB1, recB2]
  decide

lemma find_comparables_dataSmall :
    find_comparables subj dataSmall = [recA, recB1, recB2] := by
  have hsort : List.insertionSort (keyLe subj) [recA, recB1, recB2] = [recA, recB1, recB2] := by
    norm_num [List.insertionSort, List.orderedInsert, keyLe, valueDiff, ratioDiff,
      subj, recA, recB1, recB2]
  rw [find_comparables]
  simp only [filterStep_dataSmall]
  rw [if_neg (by simp), hsort]
  rfl

/-- Witness for C2 on a dataset with three eligible candidates. -/
theorem find_comparables_topN_wit :
    (filterStep subj dataSmall).length < 5 ∧
      ((find_comparables subj dataSmall).Perm (filterStep subj dataSmall) ∧
        (find_comparables subj dataSmall).Sorted (keyLe subj)) := by
  have hlt : (filterStep subj dataSmall).length < 5 := by
    rw [filterStep_dataSmall]; simp
  exact ⟨hlt, (find_comparables_topN subj dataSmall).2 hlt⟩

/-- Witness for C5: two result rows with identical sort keys keep their
dataset order. -/
theorem find_comparables_stable_wit :
    valueDiff subj recB1 = valueDiff subj recB2 ∧
      ratioDiff subj recB1 = ratioDiff subj recB2 ∧
      [recB1, recB2] <+ find_comparables subj dataSmall ∧
      [recB1, recB2] <+ dataSmall := by
  have hv : valueDiff subj recB1 = valueDiff subj recB2 := by
    norm_num [valueDiff, subj, recB1, recB2]
  have hr : ratioDiff subj recB1 = ratioDiff subj recB2 := by
    norm_num [ratioDiff, subj, recB1, recB2]
  have hsub : [recB1, recB2] <+ find_comparables subj dataSmall := by
    rw [find_comparables_dataSmall]
    exact (List.Sublist.refl _).cons recA
  exact ⟨hv, hr, hsub, find_comparables_stable subj dataSmall recB1 recB2 hv hr hsub⟩

lemma find_comparables_dataSix :
    find_comparables subj dataSix = [recA, recB1, recB2, recB3, recB4] := by
  have hfil : filterStep subj dataSix = [recA, recB1, recB2, recB3, recB4, recB5] := by
    norm_num [filterStep, eligible, dataSix, subj, recA, recB1, recB2, recB3, recB4, recB5]
    decide
  have hsort : List.insertionSort (keyLe subj) [recA, recB1, recB2, recB3, recB4, recB5] =
      [recA, recB1, recB2, recB3, recB4, recB5] := by
    norm_num [List.insertionSort, List.orderedInsert, keyLe, valueDiff, ratioDiff,
      subj, recA, recB1, recB2, recB3, recB4, recB5]
  rw [find_comparables]
  simp only [hfil]
  rw [if_neg (by simp), hsort]
  rfl

lemma find_comparablesOld_dataSix :
    find_comparablesOld subj dataSix = [recB1, recB2, recB3, recB4, recB5] := by
  have hfil : dataSix.filter (eligibleOld subj) = [recA, recB1, recB2, recB3, recB4, recB5] := by
    norm_num [eligibleOld, dataSix, subj, recA, recB1, recB2, recB3, recB4, recB5]
    decide
  have hsort : List.insertionSort (keyLeOld subj) [recA, recB1, recB2, recB3, recB4, recB5] =
      [recB1, recB2, recB3, recB4, recB5, recA] := by
    norm_num [List.insertionSort, List.orderedInsert, keyLeOld, keyLe, combinedDiff,
      valueDiff, ratioDiff, subj, recA, recB1, recB2, recB3, recB4, recB5]
  rw [find_comparablesOld, hfil, hsort]
  rfl

/-- C9: the combined-first historical policy and the value-first current
policy select different top-5 comparable sets on `dataSix`: the current
engine keeps `recA`, the historical engine drops it. -/
theorem find_comparables_policies_differ :
    recA ∈ find_comparables subj dataSix ∧ recA ∉ find_comparablesOld subj dataSix := by
  rw [find_comparables_dataSix, find_comparablesOld_dataSix]
  constructor
  · exact List.mem_cons_self _ _
  · intro h
    have : recA = recB1 ∨ recA = recB2 ∨ recA = recB3 ∨ recA = recB4 ∨ recA = recB5 := by
      simpa using h
    rcases this with h' | h' | h' | h' | h' <;> exact absurd h' (by decide)

/-! ### The frame-level model

Cells of a parsed CSV frame are strings or (exact rational) numbers.
Column access may fail the way pandas raises `KeyError`, and using a
non-numeric cell in a numeric comparison fails the way pandas raises
`TypeError`. -/

/-- A cell value of the parsed CSV frame. -/
inductive Val where
  | str (s : String)
  | num (q : ℚ)
deriving DecidableEq

/-- The exceptions the engine can raise: `KeyError` for a missing
column and `TypeError` for a non-numeric operand of a numeric
operation. -/
inductive Err where
  | keyError (col : String)
  | typeError
deriving DecidableEq

/-- A pandas DataFrame: a header plus aligned value rows. -/
structure Frame where
  cols : List String
  rows : List (List Val)
deriving DecidableEq

/-- Label-based cell access (`row[col]` on a Series whose index is the
frame's header): `KeyError` when the label is absent. -/
def getCell (cols : List String) (row : List Val) (c : String) : Except Err Val :=
  match cols.findIdx? (fun c' => c' == c) with
  | some i =>
    match row[i]? with
    | some v => Except.ok v
    | none => Except.error (Err.keyError c)
  | none => Except.error (Err.keyError c)

/-- Numeric coercion: pandas raises `TypeError` when a string meets a
numeric comparison or arithmetic operation. -/
def asNum (v : Val) : Except Err ℚ :=
  match v with
  | Val.num q => Except.ok q
  | Val.str _ => Except.error Err.typeError

/-- The eight columns the filter of `find_comparables` reads, in source
order. -/
def engineCols : List String :=
  ["Hotel Name", "Property Address", "Owner Name/ LLC Name", "Owner Street Address",
   "Hotel Class", "Type", "Market Value-2024", "VPR"]

/-- `dataset[col]` raises `KeyError` on the first missing column, in
source order. -/
def requireCols (cols : List String) : List String → Except Err Unit
  | [] => Except.ok ()
  | c :: cs => if c ∈ cols then requireCols cols cs else Except.error (Err.keyError c)

/-- One row of the boolean mask of lines 11–22 of `steamlit.py`.  All
ten conjuncts are evaluated eagerly (`&` on pandas Series is not
short-circuiting), so a type error in a numeric column is raised even
for rows that fail an earlier condition. -/
def rowElig (cols : List String) (sName sAddr sOwner sOwnerAddr sClass : Val)
    (sMV sVPR : ℚ) (r : List Val) : Except Err Bool := do
  let cName ← getCell cols r "Hotel Name"
  let cAddr ← getCell cols r "Property Address"
  let cOwner ← getCell cols r "Owner Name/ LLC Name"
  let cOwnerAddr ← getCell cols r "Owner Street Address"
  let cClass ← getCell cols r "Hotel Class"
  let cType ← getCell cols r "Type"
  let cMV ← asNum (← getCell cols r "Market Value-2024")
  let cVPR ← asNum (← getCell cols r "VPR")
  pure ((cName != sName) && (cAddr != sAddr) && (cOwner != sOwner) &&
    (cOwnerAddr != sOwnerAddr) && (cClass == sClass) && (cType == Val.str "Hotel") &&
    decide (sMV - 100000 ≤ cMV) && decide (cMV ≤ sMV + 100000) &&
    decide (sVPR / 2 ≤ cVPR) && decide (cVPR ≤ sVPR))

/-- `dataset[mask]`: keep the rows whose mask entry is true; the first
failing mask entry aborts the whole call, as the column-wise pandas
comparison would. -/
def filterE {α : Type} (p : α → Except Err Bool) : List α → Except Err (List α)
  | [] => Except.ok []
  | r :: rs => do
    let b ← p r
    let rest ← filterE p rs
    pure (if b then r :: rest else rest)

/-- Monadic map, failing on the first failing element. -/
def mapE {α β : Type} (f : α → Except Err β) : List α → Except Err (List β)
  | [] => Except.ok []
  | a :: as => do
    let b ← f a
    let rest ← mapE f as
    pure (b :: rest)

/-- Lines 30–31: attach `Market_Value_Diff` and `VPU_VPR_Diff` to a
filtered row. -/
def scoreRow (cols : List String) (sMV sVPR : ℚ) (r : List Val) :
    Except Err (List Val × ℚ × ℚ) := do
  let cMV ← asNum (← getCell cols r "Market Value-2024")
  let cVPR ← asNum (← getCell cols r "VPR")
  pure (r, |cMV - sMV|, |cVPR - sVPR|)

/-- The comparison of `sort_values(by=['Market_Value_Diff', 'VPU_VPR_Diff'])`
on scored rows. -/
def scoredLe (a b : List Val × ℚ × ℚ) : Prop :=
  a.2.1 < b.2.1 ∨ (a.2.1 = b.2.1 ∧ a.2.2 ≤ b.2.2)

instance : DecidableRel scoredLe := fun a b => by
  unfold scoredLe; infer_instance

/-- `find_comparables` at the frame level, lines 5–35 of `steamlit.py`:
column accesses may raise, the empty filter result returns the empty
frame `pd.DataFrame()` (no columns at all), and otherwise the two
difference columns are appended, the rows are sorted stably by them and
the first five are returned. -/
def findComparablesE (subject : List Val) (df : Frame) : Except Err Frame := do
  let () ← requireCols df.cols engineCols
  let sName ← getCell df.cols subject "Hotel Name"
  let sAddr ← getCell df.cols subject "Property Address"
  let sOwner ← getCell df.cols subject "Owner Name/ LLC Name"
  let sOwnerAddr ← getCell df.cols subject "Owner Street Address"
  let sClass ← getCell df.cols subject "Hotel Class"
  let sMV ← asNum (← getCell df.cols subject "Market Value-2024")
  let sVPR ← asNum (← getCell df.cols subject "VPR")
  let elig ← filterE (rowElig df.cols sName sAddr sOwner sOwnerAddr sClass sMV sVPR) df.rows
  if elig = [] then pure ⟨[], []⟩
  else do
    let scored ← mapE (scoreRow df.cols sMV sVPR) elig
    let sorted := List.insertionSort scoredLe scored
    pure ⟨df.cols ++ ["Market_Value_Diff", "VPU_VPR_Diff"],
      (sorted.take 5).map (fun x => x.1 ++ [Val.num x.2.1, Val.num x.2.2])⟩

/-- The nine report fields, in the order of lines 202–212 of
`steamlit.py`. -/
def reportFields : List String :=
  ["VPR", "Hotel Name", "Property Address", "Market Value-2024", "Hotel Class",
   "Owner Name/ LLC Name", "Owner Street Address", "Type", "account number"]

/-- `row[c] if c in frame.columns else None`: the defensive probing of
lines 202–236. -/
def probe (cols : List String) (row : List Val) (c : String) : Option Val :=
  if c ∈ cols then (getCell cols row c).toOption else none

/-- The block of nine `comp{i+1} {field}` entries for comparable slot
`i` (0-based): the i-th returned comparable's probed attributes when
`i < len(comparables)`, otherwise nine `None` entries. -/
def compBlock (comps : Frame) (i : Nat) : List (String × Option Val) :=
  match comps.rows[i]? with
  | some comp =>
    reportFields.map (fun f => ("comp" ++ toString (i + 1) ++ " " ++ f, probe comps.cols comp f))
  | none =>
    reportFields.map (fun f => ("comp" ++ toString (i + 1) ++ " " ++ f, (none : Option Val)))

/-- One `result_entry` dict of the download loop: the subject's nine
probed attributes followed by five comparable blocks. -/
def mkEntry (df : Frame) (subject : List Val) (comps : Frame) : List (String × Option Val) :=
  reportFields.map (fun f => (f, probe df.cols subject f)) ++
    (List.range 5).flatMap (compBlock comps)

/-- Processing one subject of the batch loop: find the comparables
(this may raise) and flatten them into a report row (this never
raises, thanks to the defensive probing). -/
def processSubject (df : Frame) (subject : List Val) : Except Err (List (String × Option Val)) := do
  let comps ← findComparablesE subject df
  pure (mkEntry df subject comps)

/-- The `for subject_index in range(len(data)): try: ... except:
continue` loop of lines 197–241: a failing subject is reported and
skipped, the loop goes on. -/
def buildReportAux (df : Frame) : List (List Val) → List (List (String × Option Val))
  | [] => []
  | s :: rest =>
    match processSubject df s with
    | Except.ok r => r :: buildReportAux df rest
    | Except.error _ => buildReportAux df rest

/-- The batch report of the download handler: one flattened row per
successfully processed subject, in dataset order. -/
def buildReport (df : Frame) : List (List (String × Option Val)) :=
  buildReportAux df df.rows

/-- The number of comparables found for a subject (0 when the engine
raises). -/
def numComps (df : Frame) (subject : List Val) : Nat :=
  match findComparablesE subject df with
  | Except.ok comps => comps.rows.length
  | Except.error _ => 0

/-- The 54 column labels of a report row: the nine subject fields, then
`comp1 …` to `comp5 …`. -/
def reportLabels : List String :=
  reportFields ++ (List.range 5).flatMap
    (fun i => reportFields.map (fun f => "comp" ++ toString (i + 1) ++ " " ++ f))

/-! ### Helper lemmas for the frame model -/

lemma except_bind_ok {α β : Type} {x : Except Err α} {f : α → Except Err β} {b : β} :
    x >>= f = Except.ok b ↔ ∃ a, x = Except.ok a ∧ f a = Except.ok b := by
  cases x <;> simp [Bind.bind, Except.bind]

lemma buildReportAux_eq_filterMap (df : Frame) (l : List (List Val)) :
    buildReportAux df l = l.filterMap (fun s => (processSubject df s).toOption) := by
  induction l with
  | nil => rfl
  | cons s rest ih =>
    cases h : processSubject df s <;>
      simp [buildReportAux, h, List.filterMap_cons, ih, Except.toOption]

/-- C7: batch report building swallows per-subject failures — the
report is exactly the rows of the subjects whose processing succeeded,
in dataset order, and the batch never aborts — while for a
single-subject call an error raised inside `find_comparables`
propagates through `processSubject` to the caller. -/
theorem buildReport_skips_failures (df : Frame) :
    buildReport df = df.rows.filterMap (fun s => (processSubject df s).toOption) ∧
      ∀ s e, findComparablesE s df = Except.error e →
        processSubject df s = Except.error e := by
  refine ⟨buildReportAux_eq_filterMap df df.rows, fun s e h => ?_⟩
  simp [processSubject, h, Bind.bind, Except.bind]

/-- A frame whose single row has a non-numeric VPR cell: processing any
subject raises `TypeError`. -/
def rowBad : List Val :=
  [Val.str "Hotel X", Val.str "9 X St", Val.str "X LLC", Val.str "90 X Rd",
   Val.str "A", Val.str "Hotel", Val.num 1000000, Val.str "nope"]

def dfBad : Frame := ⟨engineCols, [rowBad]⟩

/-- Witness for C7: on `dfBad` the engine raises `TypeError` for the
single subject, and the error propagates through `processSubject`. -/
theorem buildReport_skips_failures_wit :
    processSubject dfBad rowBad = Except.error Err.typeError :=
  (buildReport_skips_failures dfBad).2 rowBad Err.typeError rfl

lemma findE_ok_shape {s : List Val} {df : Frame} {c : Frame}
    (h : findComparablesE s df = Except.ok c) :
    c = ⟨[], []⟩ ∨ ∃ scored : List (List Val × ℚ × ℚ),
      c.cols = df.cols ++ ["Market_Value_Diff", "VPU_VPR_Diff"] ∧
      c.rows = ((List.insertionSort scoredLe scored).take 5).map
        (fun x => x.1 ++ [Val.num x.2.1, Val.num x.2.2]) := by
  rw [findComparablesE] at h
  repeat
    rcases except_bind_ok.1 h with ⟨_, -, h⟩
  rename_i elig _ _ _ _ _ _ _ _ _ _
  split at h
  · left
    simp only [pure, Except.pure, Except.ok.injEq] at h
    exact h.symm
  · rcases except_bind_ok.1 h with ⟨scored, -, h⟩
    simp only [pure, Except.pure, Except.ok.injEq] at h
    exact Or.inr ⟨scored, by rw [← h], by rw [← h]⟩

lemma numComps_le (df : Frame) (s : List Val) : numComps df s ≤ 5 := by
  rw [numComps]
  split
  · rename_i c h
    rcases findE_ok_shape h with rfl | ⟨scored, -, hr⟩
    · simp
    · rw [hr]
      simp [List.length_take]
  · exact Nat.zero_le 5

lemma compBlock_fst (c : Frame) (i : Nat) :
    (compBlock c i).map Prod.fst =
      reportFields.map (fun f => "comp" ++ toString (i + 1) ++ " " ++ f) := by
  cases h : c.rows[i]? <;> simp [compBlock, h]

lemma compBlock_length (c : Frame) (i : Nat) : (compBlock c i).length = 9 := by
  cases h : c.rows[i]? <;> simp [compBlock, h, reportFields]

lemma compBlock_beyond {c : Frame} {i : Nat} (h : c.rows.length ≤ i) :
    ∀ p ∈ compBlock c i, p.2 = none := by
  intro p hp
  rw [compBlock, List.getElem?_eq_none h] at hp
  rcases List.mem_map.1 hp with ⟨f, -, rfl⟩
  rfl

lemma mkEntry_fst (df : Frame) (s : List Val) (c : Frame) :
    (mkEntry df s c).map Prod.fst = reportLabels := by
  simp [mkEntry, reportLabels, List.map_flatMap, compBlock_fst, Function.comp_def,
    List.map_id']

lemma flatMap_compBlock_length (c : Frame) :
    ∀ (n s : Nat), ((List.range' s n).flatMap (compBlock c)).length = 9 * n := by
  intro n
  induction n with
  | zero => intro s; rfl
  | succ n ih =>
    intro s
    rw [List.range'_succ, List.flatMap_cons, List.length_append, compBlock_length, ih]
    omega

lemma buildReportAux_length (df : Frame) (l : List (List Val)) :
    (buildReportAux df l).length =
      l.countP (fun s => (processSubject df s).toOption.isSome) := by
  induction l with
  | nil => rfl
  | cons s rest ih =>
    cases h : processSubject df s <;>
      simp [buildReportAux, h, List.countP_cons, ih, Except.toOption]

lemma processSubject_ok {df : Frame} {s : List Val} {r : List (String × Option Val)}
    (h : processSubject df s = Except.ok r) :
    ∃ c, findComparablesE s df = Except.ok c ∧ r = mkEntry df s c := by
  rw [processSubject] at h
  rcases except_bind_ok.1 h with ⟨c, hc, h⟩
  simp only [pure, Except.pure, Except.ok.injEq] at h
  exact ⟨c, hc, h.symm⟩

/-- C6: the batch report has at most one row per dataset record — one
per successfully processed subject, in dataset order — and every
emitted row has exactly 54 labelled columns: the nine subject fields
under their exact source labels followed by the same nine fields under
`comp1 …` to `comp5 …`, with `None` in every column of a comparable
slot beyond the number of comparables actually found. -/
theorem buildReport_row_shape (df : Frame) :
    (buildReport df).length ≤ df.rows.length ∧
      (buildReport df).length =
        df.rows.countP (fun s => (processSubject df s).toOption.isSome) ∧
      reportLabels =
        ["VPR", "Hotel Name", "Property Address", "Market Value-2024", "Hotel Class",
         "Owner Name/ LLC Name", "Owner Street Address", "Type", "account number",
         "comp1 VPR", "comp1 Hotel Name", "comp1 Property Address",
         "comp1 Market Value-2024", "comp1 Hotel Class", "comp1 Owner Name/ LLC Name",
         "comp1 Owner Street Address", "comp1 Type", "comp1 account number",
         "comp2 VPR", "comp2 Hotel Name", "comp2 Property Address",
         "comp2 Market Value-2024", "comp2 Hotel Class", "comp2 Owner Name/ LLC Name",
         "comp2 Owner Street Address", "comp2 Type", "comp2 account number",
         "comp3 VPR", "comp3 Hotel Name", "comp3 Property Address",
         "comp3 Market Value-2024", "comp3 Hotel Class", "comp3 Owner Name/ LLC Name",
         "comp3 Owner Street Address", "comp3 Type", "comp3 account number",
         "comp4 VPR", "comp4 Hotel Name", "comp4 Property Address",
         "comp4 Market Value-2024", "comp4 Hotel Class", "comp4 Owner Name/ LLC Name",
         "comp4 Owner Street Address", "comp4 Type", "comp4 account number",
         "comp5 VPR", "comp5 Hotel Name", "comp5 Property Address",
         "comp5 Market Value-2024", "comp5 Hotel Class", "comp5 Owner Name/ LLC Name",
         "comp5 Owner Street Address", "comp5 Type", "comp5 account number"] ∧
      ∀ s r, processSubject df s = Except.ok r →
        r.map Prod.fst = reportLabels ∧ r.length = 54 ∧
          ∀ p ∈ r.drop (9 + 9 * numComps df s), p.2 = none := by
  refine ⟨?_, ?_, rfl, ?_⟩
  · rw [buildReport, buildReportAux_length]
    exact List.countP_le_length _
  · rw [buildReport, buildReportAux_length]
  · intro s r h
    rcases processSubject_ok h with ⟨c, hc, rfl⟩
    have hnum : numComps df s = c.rows.length := by rw [numComps, hc]
    have hle5 : c.rows.length ≤ 5 := by
      have := numComps_le df s
      omega
    refine ⟨mkEntry_fst df s c, ?_, ?_⟩
    · have := congrArg List.length (mkEntry_fst df s c)
      simpa using this
    · rw [hnum]
      have h5 : (5 - c.rows.length) + c.rows.length = 5 := by omega
      have hsplit : List.range 5 =
          List.range' 0 c.rows.length ++ List.range' c.rows.length (5 - c.rows.length) := by
        rw [List.range_eq_range', ← h5, ← List.range'_append_1]
        simp
      intro p hp
      rw [mkEntry, hsplit, List.flatMap_append, ← List.append_assoc] at hp
      rw [List.drop_left'] at hp
      · rcases List.mem_flatMap.1 hp with ⟨i, hi, hpi⟩
        rcases List.mem_range'.1 hi with ⟨j, -, rfl⟩
        exact compBlock_beyond (by omega) p hpi
      · rw [List.length_append, List.length_map, flatMap_compBlock_length]
        have : reportFields.length = 9 := rfl
        omega

/-! ### Concrete frames -/

/-- A well-formed subject row (the frame has the nine report columns). -/
def fsubj : List Val :=
  [Val.str "Subject Hotel", Val.str "1 Main St", Val.str "Subject LLC", Val.str "10 Owner Rd",
   Val.str "A", Val.str "Hotel", Val.num 1000000, Val.num 10, Val.str "S-1"]

/-- An eligible candidate row. -/
def fcand : List Val :=
  [Val.str "Hotel A", Val.str "2 A St", Val.str "A LLC", Val.str "20 A Rd",
   Val.str "A", Val.str "Hotel", Val.num 1000010, Val.num 5, Val.str "A-1"]

/-- A well-formed two-row frame with the full nine-column schema. -/
def dfGood : Frame := ⟨engineCols ++ ["account number"], [fsubj, fcand]⟩

/-- The frame `find_comparables` returns for `fsubj` on `dfGood`: the
candidate row with its two difference cells, under the input columns
plus the two difference columns. -/
def resGood : Frame :=
  ⟨(engineCols ++ ["account number"]) ++ ["Market_Value_Diff", "VPU_VPR_Diff"],
   [fcand ++ [Val.num 10, Val.num 5]]⟩

lemma findE_dfGood : findComparablesE fsubj dfGood = Except.ok resGood := by
  have h1 : rowElig dfGood.cols (Val.str "Subject Hotel") (Val.str "1 Main St")
      (Val.str "Subject LLC") (Val.str "10 Owner Rd") (Val.str "A") 1000000 10 fsubj =
      Except.ok false := by
    simp [rowElig, getCell, dfGood, fsubj, engineCols, asNum, Bind.bind, Except.bind,
      pure, Except.pure]
  have h2 : rowElig dfGood.cols (Val.str "Subject Hotel") (Val.str "1 Main St")
      (Val.str "Subject LLC") (Val.str "10 Owner Rd") (Val.str "A") 1000000 10 fcand =
      Except.ok true := by
    simp [rowElig, getCell, dfGood, fcand, engineCols, asNum, Bind.bind, Except.bind,
      pure, Except.pure]
    norm_num
  have h3 : scoreRow dfGood.cols 1000000 10 fcand = Except.ok (fcand, 10, 5) := by
    simp [scoreRow, getCell, dfGood, fcand, engineCols, asNum, Bind.bind, Except.bind,
      pure, Except.pure]
    norm_num
  have r0 : requireCols dfGood.cols engineCols = Except.ok () := rfl
  have g1 : getCell dfGood.cols fsubj "Hotel Name" = Except.ok (Val.str "Subject Hotel") := rfl
  have g2 : getCell dfGood.cols fsubj "Property Address" = Except.ok (Val.str "1 Main St") := rfl
  have g3 : getCell dfGood.cols fsubj "Owner Name/ LLC Name" =
      Except.ok (Val.str "Subject LLC") := rfl
  have g4 : getCell dfGood.cols fsubj "Owner Street Address" =
      Except.ok (Val.str "10 Owner Rd") := rfl
  have g5 : getCell dfGood.cols fsubj "Hotel Class" = Except.ok (Val.str "A") := rfl
  have g6 : getCell dfGood.cols fsubj "Market Value-2024" = Except.ok (Val.num 1000000) := rfl
  have g7 : getCell dfGood.cols fsubj "VPR" = Except.ok (Val.num 10) := rfl
  have hrows : dfGood.rows = [fsubj, fcand] := rfl
  simp only [findComparablesE, r0, g1, g2, g3, g4, g5, g6, g7, hrows, asNum,
    Bind.bind, Except.bind, filterE, h1, h2, mapE, h3, pure, Except.pure,
    List.insertionSort, List.orderedInsert]
  simp [resGood]
  rfl

/-- Witness for C6 at `dfGood`: the row built for `fsubj` has the 54
exact labels, length 54, and `None` in the slots beyond the single
comparable found. -/
theorem buildReport_row_shape_wit :
    (mkEntry dfGood fsubj resGood).map Prod.fst = reportLabels ∧
      (mkEntry dfGood fsubj resGood).length = 54 ∧
      ∀ p ∈ (mkEntry dfGood fsubj resGood).drop (9 + 9 * numComps dfGood fsubj),
        p.2 = none := by
  have hp : processSubject dfGood fsubj = Except.ok (mkEntry dfGood fsubj resGood) := by
    simp [processSubject, findE_dfGood, Bind.bind, Except.bind, pure, Except.pure]
  exact (buildReport_row_shape dfGood).2.2.2 fsubj (mkEntry dfGood fsubj resGood) hp

/-- Counterexample for C10: on the well-formed frame `dfGood` the
engine returns the candidate rows together with the two derived score
columns `Market_Value_Diff` and `VPU_VPR_Diff`, which are not columns
of the input dataset — the returned rows do not carry exactly the input
columns. -/
theorem scores_persisted_cex :
    findComparablesE fsubj dfGood = Except.ok resGood ∧
      "Market_Value_Diff" ∈ resGood.cols ∧ "VPU_VPR_Diff" ∈ resGood.cols ∧
      "Market_Value_Diff" ∉ dfGood.cols ∧ "VPU_VPR_Diff" ∉ dfGood.cols := by
  refine ⟨findE_dfGood, ?_, ?_, ?_, ?_⟩ <;> decide

/-- C10 amended: the two derived scores are used for ordering, but they
are persisted — every non-empty result frame carries exactly the input
dataset's columns followed by the two score columns `Market_Value_Diff`
and `VPU_VPR_Diff` (and the no-match result is the empty frame with no
columns at all). -/
theorem find_result_extra_cols (s : List Val) (df : Frame) (c : Frame)
    (h : findComparablesE s df = Except.ok c) :
    (c.cols = [] ∧ c.rows = []) ∨
      c.cols = df.cols ++ ["Market_Value_Diff", "VPU_VPR_Diff"] := by
  rcases findE_ok_shape h with rfl | ⟨scored, hcols, -⟩
  · exact Or.inl ⟨rfl, rfl⟩
  · exact Or.inr hcols

/-- Witness for the amended C10 at `dfGood`. -/
theorem find_result_extra_cols_wit :
    (resGood.cols = [] ∧ resGood.rows = []) ∨
      resGood.cols = dfGood.cols ++ ["Market_Value_Diff", "VPU_VPR_Diff"] :=
  find_result_extra_cols fsubj dfGood resGood findE_dfGood

/-- A frame from which the engine column `Hotel Name` is absent. -/
def fRowM : List Val :=
  [Val.str "1 Main St", Val.str "Subject LLC", Val.str "10 Owner Rd", Val.str "A",
   Val.str "Hotel", Val.num 1000000, Val.num 10, Val.str "S-1"]

def dfMissing : Frame :=
  ⟨["Property Address", "Owner Name/ LLC Name", "Owner Street Address", "Hotel Class",
    "Type", "Market Value-2024", "VPR", "account number"],
   [fRowM]⟩

/-- Counterexample for C8: when the engine column `Hotel Name` is
absent the engine raises `KeyError` instead of substituting an empty
value, and the batch report comes out empty — no blank-filled row is
produced for the dataset's row. -/
theorem schema_gap_cex :
    findComparablesE fRowM dfMissing = Except.error (Err.keyError "Hotel Name") ∧
      buildReport dfMissing = [] ∧ dfMissing.rows ≠ [] :=
  ⟨rfl, rfl, by decide⟩

/-! ### Schema-gap analysis (C8) -/

/-- The report labels that carry the account-number attribute. -/
def accountLabels : List String :=
  "account number" :: (List.range 5).map (fun i => "comp" ++ toString (i + 1) ++ " account number")

/-- A frame is well formed for the engine when the eight engine columns
are present, every row answers a cell for each of them, and the two
numeric columns hold numbers. -/
def wellFormed (df : Frame) : Prop :=
  (∀ c ∈ engineCols, c ∈ df.cols) ∧
    ∀ r ∈ df.rows,
      (∀ c ∈ engineCols, ∃ v, getCell df.cols r c = Except.ok v) ∧
        (∃ q, getCell df.cols r "Market Value-2024" = Except.ok (Val.num q)) ∧
        (∃ q, getCell df.cols r "VPR" = Except.ok (Val.num q))

lemma requireCols_ok {cols : List String} :
    ∀ {needed : List String}, (∀ c ∈ needed, c ∈ cols) →
      requireCols cols needed = Except.ok ()
  | [], _ => rfl
  | c :: cs, h => by
    rw [requireCols, if_pos (h c (List.mem_cons_self c cs))]
    exact requireCols_ok (fun c' hc' => h c' (List.mem_cons_of_mem c hc'))

lemma filterE_ok {α : Type} {p : α → Except Err Bool} :
    ∀ {l : List α}, (∀ a ∈ l, ∃ b, p a = Except.ok b) →
      ∃ l', filterE p l = Except.ok l' ∧ ∀ a ∈ l', a ∈ l
  | [], _ => ⟨[], rfl, by simp⟩
  | a :: as, h => by
    rcases h a (List.mem_cons_self a as) with ⟨b, hb⟩
    rcases filterE_ok (fun a' ha' => h a' (List.mem_cons_of_mem a ha')) with ⟨l', hl', hsub⟩
    refine ⟨if b then a :: l' else l', ?_, ?_⟩
    · simp [filterE, hb, hl', Bind.bind, Except.bind, pure, Except.pure]
    · intro x hx
      cases b with
      | true =>
        rcases List.mem_cons.1 (by simpa using hx) with rfl | hx'
        · exact List.mem_cons_self x as
        · exact List.mem_cons_of_mem a (hsub x hx')
      | false => exact List.mem_cons_of_mem a (hsub x (by simpa using hx))

lemma mapE_ok {α β : Type} {f : α → Except Err β} :
    ∀ {l : List α}, (∀ a ∈ l, ∃ b, f a = Except.ok b) →
      ∃ l', mapE f l = Except.ok l'
  | [], _ => ⟨[], rfl⟩
  | a :: as, h => by
    rcases h a (List.mem_cons_self a as) with ⟨b, hb⟩
    rcases mapE_ok (fun a' ha' => h a' (List.mem_cons_of_mem a ha')) with ⟨l', hl'⟩
    exact ⟨b :: l', by simp [mapE, hb, hl', Bind.bind, Except.bind, pure, Except.pure]⟩

lemma rowElig_eval {cols : List String} {r : List Val} {v1 v2 v3 v4 v5 v6 : Val} {q1 q2 : ℚ}
    (sName sAddr sOwner sOwnerAddr sClass : Val) (sMV sVPR : ℚ)
    (h1 : getCell cols r "Hotel Name" = Except.ok v1)
    (h2 : getCell cols r "Property Address" = Except.ok v2)
    (h3 : getCell cols r "Owner Name/ LLC Name" = Except.ok v3)
    (h4 : getCell cols r "Owner Street Address" = Except.ok v4)
    (h5 : getCell cols r "Hotel Class" = Except.ok v5)
    (h6 : getCell cols r "Type" = Except.ok v6)
    (h7 : getCell cols r "Market Value-2024" = Except.ok (Val.num q1))
    (h8 : getCell cols r "VPR" = Except.ok (Val.num q2)) :
    rowElig cols sName sAddr sOwner sOwnerAddr sClass sMV sVPR r =
      Except.ok ((v1 != sName) && (v2 != sAddr) && (v3 != sOwner) && (v4 != sOwnerAddr) &&
        (v5 == sClass) && (v6 == Val.str "Hotel") &&
        decide (sMV - 100000 ≤ q1) && decide (q1 ≤ sMV + 100000) &&
        decide (sVPR / 2 ≤ q2) && decide (q2 ≤ sVPR)) := by
  simp [rowElig, h1, h2, h3, h4, h5, h6, h7, h8, asNum, Bind.bind, Except.bind,
    pure, Except.pure]

lemma scoreRow_eval {cols : List String} {r : List Val} {q1 q2 : ℚ} (sMV sVPR : ℚ)
    (h7 : getCell cols r "Market Value-2024" = Except.ok (Val.num q1))
    (h8 : getCell cols r "VPR" = Except.ok (Val.num q2)) :
    scoreRow cols sMV sVPR r = Except.ok (r, |q1 - sMV|, |q2 - sVPR|) := by
  simp [scoreRow, h7, h8, asNum, Bind.bind, Except.bind, pure, Except.pure]

/-- C8 amended: the engine tolerates only the absence of the
report-only column `account number`: on a well-formed frame lacking it,
every subject is processed without any exception and all
account-number report cells come out empty; absence of an engine
column, by contrast, raises `KeyError` (see the counterexample). -/
theorem schema_gap_amended (df : Frame) (s : List Val)
    (hwf : wellFormed df) (hs : s ∈ df.rows) (hacct : "account number" ∉ df.cols) :
    ∃ r, processSubject df s = Except.ok r ∧
      ∀ p ∈ r, p.1 ∈ accountLabels → p.2 = none := by
  obtain ⟨hcols, hrows⟩ := hwf
  obtain ⟨hcells, ⟨qmv, hvmv⟩, ⟨qvpr, hvvpr⟩⟩ := hrows s hs
  obtain ⟨v1, hv1⟩ := hcells "Hotel Name" (by simp [engineCols])
  obtain ⟨v2, hv2⟩ := hcells "Property Address" (by simp [engineCols])
  obtain ⟨v3, hv3⟩ := hcells "Owner Name/ LLC Name" (by simp [engineCols])
  obtain ⟨v4, hv4⟩ := hcells "Owner Street Address" (by simp [engineCols])
  obtain ⟨v5, hv5⟩ := hcells "Hotel Class" (by simp [engineCols])
  have hreq : requireCols df.cols engineCols = Except.ok () := requireCols_ok hcols
  have hfil_pre : ∀ r ∈ df.rows,
      ∃ b, rowElig df.cols v1 v2 v3 v4 v5 qmv qvpr r = Except.ok b := by
    intro r hr
    obtain ⟨hc, ⟨q1, h7⟩, ⟨q2, h8⟩⟩ := hrows r hr
    obtain ⟨w1, hw1⟩ := hc "Hotel Name" (by simp [engineCols])
    obtain ⟨w2, hw2⟩ := hc "Property Address" (by simp [engineCols])
    obtain ⟨w3, hw3⟩ := hc "Owner Name/ LLC Name" (by simp [engineCols])
    obtain ⟨w4, hw4⟩ := hc "Owner Street Address" (by simp [engineCols])
    obtain ⟨w5, hw5⟩ := hc "Hotel Class" (by simp [engineCols])
    obtain ⟨w6, hw6⟩ := hc "Type" (by simp [engineCols])
    exact ⟨_, rowElig_eval v1 v2 v3 v4 v5 qmv qvpr hw1 hw2 hw3 hw4 hw5 hw6 h7 h8⟩
  rcases filterE_ok hfil_pre with ⟨elig, helig, hsub⟩
  have hscore_pre : ∀ r ∈ elig, ∃ y, scoreRow df.cols qmv qvpr r = Except.ok y := by
    intro r hr
    obtain ⟨-, ⟨q1, h7⟩, ⟨q2, h8⟩⟩ := hrows r (hsub r hr)
    exact ⟨_, scoreRow_eval qmv qvpr h7 h8⟩
  have hfind : ∃ c, findComparablesE s df = Except.ok c := by
    by_cases he : elig = []
    · refine ⟨⟨[], []⟩, ?_⟩
      simp only [findComparablesE, hreq, hv1, hv2, hv3, hv4, hv5, hvmv, hvvpr, asNum,
        Bind.bind, Except.bind, helig]
      simp [he, pure, Except.pure]
    · rcases mapE_ok hscore_pre with ⟨scored, hscored⟩
      refine ⟨⟨df.cols ++ ["Market_Value_Diff", "VPU_VPR_Diff"],
        ((List.insertionSort scoredLe scored).take 5).map
          (fun x => x.1 ++ [Val.num x.2.1, Val.num x.2.2])⟩, ?_⟩
      simp only [findComparablesE, hreq, hv1, hv2, hv3, hv4, hv5, hvmv, hvvpr, asNum,
        Bind.bind, Except.bind, helig, hscored]
      simp [he, pure, Except.pure]
  obtain ⟨c, hc⟩ := hfind
  have hacct_c : "account number" ∉ c.cols := by
    rcases findE_ok_shape hc with rfl | ⟨scored, hcolseq, -⟩
    · simp
    · rw [hcolseq]
      simp [hacct]
  refine ⟨mkEntry df s c, ?_, ?_⟩
  · simp [processSubject, hc, Bind.bind, Except.bind, pure, Except.pure]
  · intro p hp hlabel
    rw [mkEntry] at hp
    rcases List.mem_append.1 hp with hp' | hp'
    · rcases List.mem_map.1 hp' with ⟨f, hf, rfl⟩
      have hl : f ∈ accountLabels := hlabel
      have hfeq : f = "account number" := by
        simp only [reportFields, List.mem_cons, List.not_mem_nil, or_false] at hf
        rcases hf with rfl | rfl | rfl | rfl | rfl | rfl | rfl | rfl | rfl <;>
          first | rfl | exact absurd hl (by decide)
      subst hfeq
      simp [probe, hacct]
    · rcases List.mem_flatMap.1 hp' with ⟨i, hi, hpi⟩
      rw [compBlock] at hpi
      cases hrow : c.rows[i]? with
      | none =>
        rw [hrow] at hpi
        rcases List.mem_map.1 hpi with ⟨f, -, rfl⟩
        rfl
      | some comp =>
        rw [hrow] at hpi
        rcases List.mem_map.1 hpi with ⟨f, hf, rfl⟩
        have hl : "comp" ++ toString (i + 1) ++ " " ++ f ∈ accountLabels := hlabel
        simp only [List.mem_range] at hi
        have hfeq : f = "account number" := by
          interval_cases i <;>
            (simp only [reportFields, List.mem_cons, List.not_mem_nil, or_false] at hf
             rcases hf with rfl | rfl | rfl | rfl | rfl | rfl | rfl | rfl | rfl <;>
               first | rfl | exact absurd hl (by decide))
        subst hfeq
        simp [probe, hacct_c]

/-- A well-formed frame with exactly the eight engine columns and no
`account number` column. -/
def fsubjN : List Val :=
  [Val.str "Subject Hotel", Val.str "1 Main St", Val.str "Subject LLC", Val.str "10 Owner Rd",
   Val.str "A", Val.str "Hotel", Val.num 1000000, Val.num 10]

def dfNoAcct : Frame := ⟨engineCols, [fsubjN]⟩

/-- Witness for the amended C8 at `dfNoAcct`. -/
theorem schema_gap_amended_wit :
    wellFormed dfNoAcct ∧ "account number" ∉ dfNoAcct.cols ∧
      ∃ r, processSubject dfNoAcct fsubjN = Except.ok r ∧
        ∀ p ∈ r, p.1 ∈ accountLabels → p.2 = none := by
  have hwf : wellFormed dfNoAcct := by
    refine ⟨by decide, ?_⟩
    intro r hr
    have hr' : r = fsubjN := by simpa [dfNoAcct] using hr
    subst hr'
    refine ⟨?_, ⟨1000000, rfl⟩, ⟨10, rfl⟩⟩
    intro c hc
    simp only [engineCols, List.mem_cons, List.not_mem_nil, or_false] at hc
    rcases hc with rfl | rfl | rfl | rfl | rfl | rfl | rfl | rfl <;> exact ⟨_, rfl⟩
  exact ⟨hwf, by decide,
    schema_gap_amended dfNoAcct fsubjN hwf (by simp [dfNoAcct]) (by decide)⟩
